import Mathlib

/-!
Shallow embedding of the core of the `openai_orch` crate (src/lib.rs,
src/policies.rs, src/chat/siso.rs, src/embed.rs), together with theorems
checking the specification's claims about the retry policies, the admission
gate, the request registry and the executables' retry loops.

Conventions: durations (`tokio::time::Duration`) are modelled in whole
nanoseconds as `Nat`; `u32` arithmetic that can wrap is modelled with an
explicit `% 2 ^ 32` (release-mode wrapping semantics); the nondeterministic
environment (the remote endpoint and the clock) is modelled as an oracle
assigning an outcome to each attempt; the tokio scheduler is modelled as a
small-step transition relation on the orchestrator state.
-/

namespace OpenaiOrch

/-- Durations in whole nanoseconds (`tokio::time::Duration`). -/
abbrev Duration := Nat

/-- One second, in nanoseconds. -/
def second : Duration := 10 ^ 9

/-- The modulus of `u32` arithmetic. -/
def U32_MOD : Nat := 2 ^ 32

/-- Embeds `2u32.pow(current_retries)` from `exponential_backoff` in
src/policies.rs: `u32` exponentiation, wrapping modulo `2 ^ 32`. -/
def pow2_u32 (n : Nat) : Nat := 2 ^ n % U32_MOD

/-- Embeds `fn exponential_backoff` from src/policies.rs:
`let delay = initial_delay * 2u32.pow(current_retries); if delay > max_delay { max_delay } else { delay }`. -/
def exponential_backoff (current_retries : Nat) (initial_delay max_delay : Duration) : Duration :=
  let delay := initial_delay * pow2_u32 current_retries
  if delay > max_delay then max_delay else delay

/-- Embeds `enum RetryPolicy` from src/policies.rs. The `u32` counters are
modelled as `Nat`: the counter is only ever incremented under the guard
`current_retries < max_retries ≤ u32::MAX`, so it cannot wrap. -/
inductive RetryPolicy
  | immediate (current_retries max_retries : Nat)
  | constantDelay (current_retries max_retries : Nat) (delay : Duration)
  | exponentialBackoff (current_retries max_retries : Nat) (initial_delay max_delay : Duration)
deriving DecidableEq, Repr

/-- Embeds the `max_retries` accessor of `RetryPolicy` from src/policies.rs. -/
def RetryPolicy.max_retries : RetryPolicy → Nat
  | .immediate _ m => m
  | .constantDelay _ m _ => m
  | .exponentialBackoff _ m _ _ => m

/-- Projection of the `current_retries` field shared by all three variants of
`RetryPolicy` in src/policies.rs. -/
def RetryPolicy.current_retries : RetryPolicy → Nat
  | .immediate c _ => c
  | .constantDelay c _ _ => c
  | .exponentialBackoff c _ _ _ => c

/-- The observable effect of one call to `RetryPolicy::failed_request` in
src/policies.rs: the returned boolean, the duration passed to
`tokio::time::sleep` (if any), and the mutated policy state. -/
structure RetryStep where
  retry : Bool
  slept : Option Duration
  next : RetryPolicy
deriving DecidableEq, Repr

/-- Embeds `RetryPolicy::failed_request` from src/policies.rs. Each arm
checks `current_retries < max_retries`; on success it increments the counter,
sleeps according to the variant (for `ExponentialBackoff` the delay is
computed from the counter value before the increment), and returns `true`;
otherwise it returns `false` without sleeping. -/
def RetryPolicy.failed_request : RetryPolicy → RetryStep
  | .immediate cur maxR =>
    if cur < maxR then
      ⟨true, none, .immediate (cur + 1) maxR⟩
    else
      ⟨false, none, .immediate cur maxR⟩
  | .constantDelay cur maxR d =>
    if cur < maxR then
      ⟨true, some d, .constantDelay (cur + 1) maxR d⟩
    else
      ⟨false, none, .constantDelay cur maxR d⟩
  | .exponentialBackoff cur maxR i m =>
    if cur < maxR then
      ⟨true, some (exponential_backoff cur i m), .exponentialBackoff (cur + 1) maxR i m⟩
    else
      ⟨false, none, .exponentialBackoff cur maxR i m⟩

/-- Iterates `failed_request`, keeping only the policy state: the policy
after `n` failed attempts have been reported. -/
def iterFail (p : RetryPolicy) : Nat → RetryPolicy
  | 0 => p
  | n + 1 => ((iterFail p n).failed_request).next

/-- The outcome the environment assigns to one attempt of an executable's
`send` loop: the `tokio::time::timeout` elapses, or the remote call returns
an error, or it returns a (not yet validated) success payload. -/
inductive Attempt (P : Type)
  | timeout
  | remoteError
  | success (payload : P)
deriving DecidableEq, Repr

/-- Whether an attempt outcome is a transient failure (timeout or remote
error), i.e. one that the source routes through `failed_request`. -/
def isTransient {P : Type} : Attempt P → Bool
  | .timeout => true
  | .remoteError => true
  | .success _ => false

/-- Two per-attempt outcomes that the `send` loops of src/chat/siso.rs and
src/embed.rs treat identically: either literally equal, or both transient
failures (a timeout and a remote error take the same branch shape). -/
def transientAlike {P : Type} (a b : Attempt P) : Prop :=
  a = b ∨ (isTransient a = true ∧ isTransient b = true)

/-- How one call of an executable's `send` terminates. -/
inductive SendOutcome (R : Type)
  | ok (r : R)
  /-- A required field of a timely success payload is missing: the `?` on the
  validation returns this error immediately, with no retry. -/
  | fieldError
  /-- Retries exhausted: `Error::new(err).context("reached max retry")`. -/
  | maxRetry
  /-- The Rust code panics (e.g. `response.choices[0]` on an empty vector). -/
  | panicked
deriving DecidableEq, Repr

/-- The observable trace of one call of an executable's `send`: the returned
result, the total number of attempts performed, and the list of backoff
sleeps performed between attempts. -/
structure SendTrace (R : Type) where
  result : SendOutcome R
  attempts : Nat
  sleeps : List Duration
deriving DecidableEq, Repr

/-- Extends a trace by one earlier failed attempt followed by the sleep (if
any) that `failed_request` performed before the remaining attempts. -/
def SendTrace.afterFail {R : Type} (t : SendTrace R) (slept : Option Duration) : SendTrace R :=
  ⟨t.result, t.attempts + 1, slept.toList ++ t.sleeps⟩

/-- Embeds the `loop { ... }` retry structure shared by
`ChatSisoRequest::send` (src/chat/siso.rs) and `EmbeddingRequest::send`
(src/embed.rs). Attempt `k` draws its outcome from the oracle `outcomes`;
a timeout or remote error is routed through `failed_request`, which either
permits a retry (incrementing the counter and possibly sleeping) or ends the
loop with the "reached max retry" error; a timely success is validated by
`validate` and its verdict is returned as is. Terminates because a permitted
retry strictly decreases `max_retries - current_retries`. -/
def sendLoop {P R : Type} (validate : P → SendOutcome R) (outcomes : Nat → Attempt P)
    (p : RetryPolicy) (k : Nat) : SendTrace R :=
  match outcomes k with
  | .success payload => ⟨validate payload, 1, []⟩
  | .timeout =>
    if h : (p.failed_request).retry then
      (sendLoop validate outcomes (p.failed_request).next (k + 1)).afterFail (p.failed_request).slept
    else
      ⟨.maxRetry, 1, []⟩
  | .remoteError =>
    if h : (p.failed_request).retry then
      (sendLoop validate outcomes (p.failed_request).next (k + 1)).afterFail (p.failed_request).slept
    else
      ⟨.maxRetry, 1, []⟩
termination_by p.max_retries - p.current_retries
decreasing_by
  all_goals
    rcases p with ⟨cur, maxR⟩ | ⟨cur, maxR, d⟩ | ⟨cur, maxR, i, m⟩ <;>
      simp only [RetryPolicy.failed_request] at h ⊢ <;>
      split at h <;>
      simp_all [RetryPolicy.max_retries, RetryPolicy.current_retries] <;>
      omega

/-- Embeds the success-payload validation of `ChatSisoRequest::send`
(src/chat/siso.rs): the payload is the `choices` vector, each choice reduced
to its `message.content`. `response.choices[0]` panics when `choices` is
empty; otherwise a missing `content` is returned as the
`"response.choices[0].message.content is None"` error, and a present content
is the successful response. -/
def chatValidate : List (Option String) → SendOutcome String
  | [] => .panicked
  | none :: _ => .fieldError
  | some c :: _ => .ok c

/-- Embeds `pub const EMBEDDING_SIZE: usize = 1536` from src/embed.rs. -/
def EMBEDDING_SIZE : Nat := 1536

/-- Embeds the success-payload validation of `EmbeddingRequest::send`
(src/embed.rs): the payload is the `data` vector of embeddings (element
values abstracted to an arbitrary type). An empty `data` is the
`"response.data is empty"` error; `as_slice().try_into()` into
`[f32; EMBEDDING_SIZE]` fails for any other length; otherwise the first
embedding is the successful response. -/
def embedValidate {α : Type} : List (List α) → SendOutcome (List α)
  | [] => .fieldError
  | e :: _ => if e.length = EMBEDDING_SIZE then .ok e else .fieldError

/-- Request identifiers (`u64` values minted by `thread_rand().next_u64()`
in src/lib.rs), modelled as `Nat`. -/
abbrev RequestID := Nat

/-- A handle for the receiving half of the per-request
`mpsc::channel(1)` result channel of src/lib.rs. -/
abbrev ResponseReceiver := Nat

/-- Removes the entry with the given key from an association-list registry.
Since registries built by `regInsert` have pairwise distinct keys (a
`HashMap` invariant), filtering and single-entry removal coincide. -/
def regErase (reg : List (RequestID × ResponseReceiver)) (i : RequestID) :
    List (RequestID × ResponseReceiver) :=
  reg.filter (fun p => p.1 != i)

/-- Embeds `HashMap::insert` on the registry: the new binding is present and
any previous binding of the same key is replaced. -/
def regInsert (reg : List (RequestID × ResponseReceiver)) (i : RequestID)
    (c : ResponseReceiver) : List (RequestID × ResponseReceiver) :=
  (i, c) :: regErase reg i

/-- The progress of one spawned tokio task (the closure in
`Orchestrator::add_request`, src/lib.rs lines 134-145): `pending` before
`semaphore.acquire()` returns, `running` while holding the permit and
executing the request's `send` body, `done` after the permit is released. -/
inductive TaskPhase
  | pending
  | running
  | done
deriving DecidableEq, Repr

/-- Whether a task phase is `running` (inside the `send` body, holding a
semaphore permit). -/
def TaskPhase.isRunning : TaskPhase → Bool
  | .running => true
  | .pending => false
  | .done => false

/-- One spawned task: the request id it serves and its progress. -/
structure OrchTask where
  tid : RequestID
  phase : TaskPhase
deriving DecidableEq, Repr

/-- Embeds the state of `struct Orchestrator` (src/lib.rs) together with the
runtime state it owns: `requests` is the `Mutex<HashMap<u64, ResponseReceiver>>`
as an association list, `available` and `limit` are the current free permits
and the capacity of the `Semaphore`, and `tasks` are the spawned tokio tasks
with their progress. -/
structure Orchestrator where
  requests : List (RequestID × ResponseReceiver)
  available : Nat
  limit : Nat
  tasks : List OrchTask
deriving DecidableEq, Repr

/-- Embeds `Orchestrator::new` (src/lib.rs lines 103-112): an empty registry
and a semaphore of capacity `policies.concurrency_policy.max_concurrent_requests`,
with all permits free and no task spawned. -/
def Orchestrator.new (max_concurrent_requests : Nat) : Orchestrator :=
  ⟨[], max_concurrent_requests, max_concurrent_requests, []⟩

/-- Embeds `Orchestrator::add_request` (src/lib.rs lines 121-151): with `id`
the value minted by `thread_rand().next_u64()`, the receiver of a fresh
channel is inserted into the registry under the registry lock, then a task is
spawned whose first action will be `semaphore.acquire()` (phase `pending`),
and `id` is returned immediately; no permit is touched and nothing is awaited
by the submitter. -/
def Orchestrator.add_request (st : Orchestrator) (id : RequestID) : Orchestrator × RequestID :=
  ({ st with
      requests := regInsert st.requests id id,
      tasks := st.tasks ++ [⟨id, .pending⟩] },
   id)

/-- The immediate outcome of `Orchestrator::get_response` (src/lib.rs lines
160-175) up to its suspension point: either the `"No response receiver found"`
error (`NotFound`), or the removed receiver on which the caller then awaits
`rx.recv()`. -/
inductive GetOutcome
  | notFound
  | waitOn (c : ResponseReceiver)
deriving DecidableEq, Repr

/-- Embeds `Orchestrator::get_response` (src/lib.rs lines 160-175):
`self.requests.lock().await.remove(&request_id.id)` removes the registry
entry first; an absent entry is the `"No response receiver found"` error,
a present one is removed and handed to the caller to await. -/
def Orchestrator.get_response (st : Orchestrator) (i : RequestID) : Orchestrator × GetOutcome :=
  match st.requests.lookup i with
  | none => (st, .notFound)
  | some c => ({ st with requests := regErase st.requests i }, .waitOn c)

/-- Small-step transition relation of the orchestrator under the tokio
scheduler: a submitter calls `add_request` with some minted id; a pending
task returns from `semaphore.acquire()` when a permit is free; a running
task completes its `send` body, sends its result and drops its permit; a
consumer calls `get_response`. Result delivery on the single-slot channel is
best effort in the source (`let _ = tx.send(res)`) and is abstracted here. -/
inductive Step : Orchestrator → Orchestrator → Prop
  | add_request (st : Orchestrator) (i : RequestID) :
      Step st (st.add_request i).1
  | acquire (reg : List (RequestID × ResponseReceiver)) (n lim : Nat) (i : RequestID)
      (l1 l2 : List OrchTask) :
      Step ⟨reg, n + 1, lim, l1 ++ ⟨i, .pending⟩ :: l2⟩
           ⟨reg, n, lim, l1 ++ ⟨i, .running⟩ :: l2⟩
  | finish (reg : List (RequestID × ResponseReceiver)) (n lim : Nat) (i : RequestID)
      (l1 l2 : List OrchTask) :
      Step ⟨reg, n, lim, l1 ++ ⟨i, .running⟩ :: l2⟩
           ⟨reg, n + 1, lim, l1 ++ ⟨i, .done⟩ :: l2⟩
  | get_response (st : Orchestrator) (i : RequestID) :
      Step st (st.get_response i).1

/-- States reachable from a given state by scheduler steps. -/
abbrev Reachable : Orchestrator → Orchestrator → Prop :=
  Relation.ReflTransGen Step

/-- The number of tasks currently executing their `send` bodies. -/
def runningCount (ts : List OrchTask) : Nat :=
  ts.countP (fun t => t.phase.isRunning)

/-- Embeds the `timeout_duration` computation of `ChatSisoRequest::send`
(src/chat/siso.rs lines 70-79): `std::cmp::min(dynamic_estimate, policies.timeout_policy.timeout)`.
The `f32` expression producing the request-specific dynamic estimate is
abstracted as the `dynamic_estimate` argument; `cmp::min` on `Duration`
returns the second operand exactly when it is smaller. -/
def effective_timeout (dynamic_estimate ceiling : Duration) : Duration :=
  if ceiling < dynamic_estimate then ceiling else dynamic_estimate

/-! Helper lemmas about `RetryPolicy.failed_request`. -/

theorem failed_request_retry_iff (p : RetryPolicy) :
    (p.failed_request).retry = true ↔ p.current_retries < p.max_retries := by
  rcases p with ⟨cur, maxR⟩ | ⟨cur, maxR, d⟩ | ⟨cur, maxR, i, m⟩ <;>
    by_cases hc : cur < maxR <;>
      simp [RetryPolicy.failed_request, RetryPolicy.current_retries,
        RetryPolicy.max_retries, hc]

theorem failed_request_next_max (p : RetryPolicy) :
    (p.failed_request).next.max_retries = p.max_retries := by
  rcases p with ⟨cur, maxR⟩ | ⟨cur, maxR, d⟩ | ⟨cur, maxR, i, m⟩ <;>
    by_cases hc : cur < maxR <;>
      simp [RetryPolicy.failed_request, RetryPolicy.max_retries, hc]

theorem failed_request_next_current (p : RetryPolicy) :
    (p.failed_request).next.current_retries =
      if p.current_retries < p.max_retries then p.current_retries + 1 else p.current_retries := by
  rcases p with ⟨cur, maxR⟩ | ⟨cur, maxR, d⟩ | ⟨cur, maxR, i, m⟩ <;>
    by_cases hc : cur < maxR <;>
      simp [RetryPolicy.failed_request, RetryPolicy.current_retries,
        RetryPolicy.max_retries, hc]

theorem failed_request_stop (p : RetryPolicy) (h : (p.failed_request).retry = false) :
    p.failed_request = ⟨false, none, p⟩ := by
  rcases p with ⟨cur, maxR⟩ | ⟨cur, maxR, d⟩ | ⟨cur, maxR, i, m⟩ <;>
    by_cases hc : cur < maxR <;>
      simp_all [RetryPolicy.failed_request, hc]

/-! Helper unfolding lemmas for `sendLoop`. -/

theorem sendLoop_success {P R : Type} (validate : P → SendOutcome R)
    (outcomes : Nat → Attempt P) (p : RetryPolicy) (k : Nat) (pl : P)
    (h : outcomes k = .success pl) :
    sendLoop validate outcomes p k = ⟨validate pl, 1, []⟩ := by
  rw [sendLoop, h]

theorem sendLoop_transient_retry {P R : Type} (validate : P → SendOutcome R)
    (outcomes : Nat → Attempt P) (p : RetryPolicy) (k : Nat)
    (h : isTransient (outcomes k) = true) (hr : (p.failed_request).retry = true) :
    sendLoop validate outcomes p k =
      (sendLoop validate outcomes (p.failed_request).next (k + 1)).afterFail
        (p.failed_request).slept := by
  rw [sendLoop]
  rcases ho : outcomes k with _ | _ | pl
  · simp [hr]
  · simp [hr]
  · rw [ho] at h; simp [isTransient] at h

theorem sendLoop_transient_stop {P R : Type} (validate : P → SendOutcome R)
    (outcomes : Nat → Attempt P) (p : RetryPolicy) (k : Nat)
    (h : isTransient (outcomes k) = true) (hr : (p.failed_request).retry = false) :
    sendLoop validate outcomes p k = ⟨.maxRetry, 1, []⟩ := by
  rw [sendLoop]
  rcases ho : outcomes k with _ | _ | pl
  · simp [hr]
  · simp [hr]
  · rw [ho] at h; simp [isTransient] at h

/-- When every attempt fails transiently, the `send` loop performs exactly
`max_retries - current_retries + 1` attempts and returns the
"reached max retry" error (auxiliary, by induction on a bound of the
remaining retry budget). -/
theorem sendLoop_alwaysFail_aux {P R : Type} (validate : P → SendOutcome R)
    (outcomes : Nat → Attempt P) (ho : ∀ n, isTransient (outcomes n) = true) :
    ∀ (d : Nat) (p : RetryPolicy) (k : Nat), p.max_retries - p.current_retries ≤ d →
      (sendLoop validate outcomes p k).result = .maxRetry ∧
      (sendLoop validate outcomes p k).attempts = (p.max_retries - p.current_retries) + 1 := by
  intro d
  induction d with
  | zero =>
    intro p k hd
    have hr : (p.failed_request).retry = false := by
      rcases hb : (p.failed_request).retry with _ | _
      · rfl
      · have := (failed_request_retry_iff p).mp hb
        omega
    rw [sendLoop_transient_stop validate outcomes p k (ho k) hr]
    constructor
    · rfl
    · simp; omega
  | succ d ih =>
    intro p k hd
    rcases hb : (p.failed_request).retry with _ | _
    · rw [sendLoop_transient_stop validate outcomes p k (ho k) hb]
      have hge : p.max_retries ≤ p.current_retries := by
        by_contra hlt
        exact absurd ((failed_request_retry_iff p).mpr (by omega)) (by simp [hb])
      constructor
      · rfl
      · simp; omega
    · have hlt := (failed_request_retry_iff p).mp hb
      have hmax := failed_request_next_max p
      have hcur := failed_request_next_current p
      rw [if_pos hlt] at hcur
      rw [sendLoop_transient_retry validate outcomes p k (ho k) hb]
      have hrec := ih (p.failed_request).next (k + 1) (by omega)
      constructor
      · simpa [SendTrace.afterFail] using hrec.1
      · simp only [SendTrace.afterFail]
        rw [hrec.2]
        omega

/-- Swapping timeouts and remote errors pointwise in the attempt oracle does
not change the behaviour of the `send` loop (auxiliary, by induction on a
bound of the remaining retry budget). -/
theorem sendLoop_transient_congr_aux {P R : Type} (validate : P → SendOutcome R)
    (o o2 : Nat → Attempt P) (h : ∀ n, transientAlike (o n) (o2 n)) :
    ∀ (d : Nat) (p : RetryPolicy) (k : Nat), p.max_retries - p.current_retries ≤ d →
      sendLoop validate o p k = sendLoop validate o2 p k := by
  intro d
  induction d with
  | zero =>
    intro p k hd
    have hr : (p.failed_request).retry = false := by
      rcases hb : (p.failed_request).retry with _ | _
      · rfl
      · have := (failed_request_retry_iff p).mp hb
        omega
    rcases h k with heq | ⟨h1, h2⟩
    · rcases ho : o k with _ | _ | pl
      · rw [sendLoop_transient_stop validate o p k (by rw [ho]; rfl) hr,
           sendLoop_transient_stop validate o2 p k (by rw [← heq, ho]; rfl) hr]
      · rw [sendLoop_transient_stop validate o p k (by rw [ho]; rfl) hr,
           sendLoop_transient_stop validate o2 p k (by rw [← heq, ho]; rfl) hr]
      · rw [sendLoop_success validate o p k pl ho,
           sendLoop_success validate o2 p k pl (by rw [← heq, ho])]
    · rw [sendLoop_transient_stop validate o p k h1 hr,
         sendLoop_transient_stop validate o2 p k h2 hr]
  | succ d ih =>
    intro p k hd
    rcases hb : (p.failed_request).retry with _ | _
    · rcases h k with heq | ⟨h1, h2⟩
      · rcases ho : o k with _ | _ | pl
        · rw [sendLoop_transient_stop validate o p k (by rw [ho]; rfl) hb,
             sendLoop_transient_stop validate o2 p k (by rw [← heq, ho]; rfl) hb]
        · rw [sendLoop_transient_stop validate o p k (by rw [ho]; rfl) hb,
             sendLoop_transient_stop validate o2 p k (by rw [← heq, ho]; rfl) hb]
        · rw [sendLoop_success validate o p k pl ho,
             sendLoop_success validate o2 p k pl (by rw [← heq, ho])]
      · rw [sendLoop_transient_stop validate o p k h1 hb,
           sendLoop_transient_stop validate o2 p k h2 hb]
    · have hlt := (failed_request_retry_iff p).mp hb
      have hmax := failed_request_next_max p
      have hcur := failed_request_next_current p
      rw [if_pos hlt] at hcur
      have hrec := ih (p.failed_request).next (k + 1) (by omega)
      rcases h k with heq | ⟨h1, h2⟩
      · rcases ho : o k with _ | _ | pl
        · rw [sendLoop_transient_retry validate o p k (by rw [ho]; rfl) hb,
             sendLoop_transient_retry validate o2 p k (by rw [← heq, ho]; rfl) hb, hrec]
        · rw [sendLoop_transient_retry validate o p k (by rw [ho]; rfl) hb,
             sendLoop_transient_retry validate o2 p k (by rw [← heq, ho]; rfl) hb, hrec]
        · rw [sendLoop_success validate o p k pl ho,
             sendLoop_success validate o2 p k pl (by rw [← heq, ho])]
      · rw [sendLoop_transient_retry validate o p k h1 hb,
           sendLoop_transient_retry validate o2 p k h2 hb, hrec]

/-! Helper lemmas about the registry. -/

theorem lookup_regErase (reg : List (RequestID × ResponseReceiver)) (i : RequestID) :
    (regErase reg i).lookup i = none := by
  induction reg with
  | nil => rfl
  | cons hd tl ih =>
    by_cases h : hd.1 = i
    · simpa [regErase, List.filter_cons, h] using ih
    · simp only [regErase, List.filter_cons] at ih ⊢
      have hb : (i == hd.1) = false := beq_eq_false_iff_ne.mpr (fun hh => h hh.symm)
      simp [h, List.lookup, ih, hb]

theorem lookup_regInsert (reg : List (RequestID × ResponseReceiver)) (i : RequestID)
    (c : ResponseReceiver) : (regInsert reg i c).lookup i = some c := by
  simp [regInsert, List.lookup]

theorem keys_regErase_nodup (reg : List (RequestID × ResponseReceiver)) (i : RequestID)
    (h : (reg.map Prod.fst).Nodup) : ((regErase reg i).map Prod.fst).Nodup :=
  h.sublist ((List.filter_sublist reg).map Prod.fst)

theorem not_mem_keys_regErase (reg : List (RequestID × ResponseReceiver)) (i : RequestID) :
    i ∉ (regErase reg i).map Prod.fst := by
  simp only [regErase, List.mem_map, List.mem_filter, bne_iff_ne]
  rintro ⟨p, ⟨-, hne⟩, hfst⟩
  exact hne hfst

theorem keys_regInsert_nodup (reg : List (RequestID × ResponseReceiver)) (i : RequestID)
    (c : ResponseReceiver) (h : (reg.map Prod.fst).Nodup) :
    ((regInsert reg i c).map Prod.fst).Nodup := by
  simp only [regInsert, List.map_cons, List.nodup_cons]
  exact ⟨not_mem_keys_regErase reg i, keys_regErase_nodup reg i h⟩

/-! Helper lemmas about the scheduler steps. -/

/-- Every scheduler step preserves the semaphore accounting
`runningCount + available` and the semaphore capacity. -/
theorem step_preserves (st st2 : Orchestrator) (h : Step st st2) :
    runningCount st2.tasks + st2.available = runningCount st.tasks + st.available ∧
    st2.limit = st.limit := by
  cases h with
  | add_request st i =>
    simp [Orchestrator.add_request, runningCount, List.countP_append, List.countP_cons,
      TaskPhase.isRunning]
  | acquire reg n lim i l1 l2 =>
    simp only [runningCount, List.countP_append, List.countP_cons, TaskPhase.isRunning]
    simp; omega
  | finish reg n lim i l1 l2 =>
    simp only [runningCount, List.countP_append, List.countP_cons, TaskPhase.isRunning]
    simp; omega
  | get_response st i =>
    rcases hl : st.requests.lookup i with _ | c <;>
      simp [Orchestrator.get_response, hl]

/-- Every scheduler step preserves distinctness of the identifiers of the
live registry entries. -/
theorem step_nodup (st st2 : Orchestrator) (h : Step st st2)
    (hn : (st.requests.map Prod.fst).Nodup) : (st2.requests.map Prod.fst).Nodup := by
  cases h with
  | add_request st i =>
    simpa [Orchestrator.add_request] using keys_regInsert_nodup st.requests i i hn
  | acquire reg n lim i l1 l2 => exact hn
  | finish reg n lim i l1 l2 => exact hn
  | get_response st i =>
    rcases hl : st.requests.lookup i with _ | c <;>
      simp [Orchestrator.get_response, hl]
    · exact hn
    · exact keys_regErase_nodup st.requests i hn

/-! Helper lemmas about iterated failures and the backoff computation. -/

theorem iterFail_max (p : RetryPolicy) (j : Nat) :
    (iterFail p j).max_retries = p.max_retries := by
  induction j with
  | zero => rfl
  | succ j ih => rw [iterFail, failed_request_next_max, ih]

theorem iterFail_current (p : RetryPolicy) (h0 : p.current_retries = 0) (j : Nat) :
    (iterFail p j).current_retries = min j p.max_retries := by
  induction j with
  | zero => simp [iterFail, h0]
  | succ j ih =>
    rw [iterFail, failed_request_next_current, ih, iterFail_max]
    split <;> omega

theorem exponential_backoff_eq_min (cur i m : Nat) :
    exponential_backoff cur i m = min (i * pow2_u32 cur) m := by
  simp only [exponential_backoff, gt_iff_lt, Nat.min_def]
  rcases Nat.lt_or_ge m (i * pow2_u32 cur) with h | h
  · rw [if_pos h, if_neg (Nat.not_le.mpr h)]
  · rw [if_neg (Nat.not_lt.mpr h), if_pos h]

/-- Below the `u32` wrap (`current_retries ≤ 31`) the code computes exactly
the specified `min(initial_delay * 2 ^ current_retries, max_delay)`. -/
theorem exponential_backoff_no_wrap (n i m : Nat) (h : n ≤ 31) :
    exponential_backoff n i m = min (i * 2 ^ n) m := by
  rw [exponential_backoff_eq_min]
  have hp : pow2_u32 n = 2 ^ n := by
    simp only [pow2_u32]
    exact Nat.mod_eq_of_lt
      (show (2:Nat) ^ n < 2 ^ 32 from Nat.pow_lt_pow_right (by omega) (by omega))
  rw [hp]

/-- At and above the `u32` wrap (`current_retries ≥ 32`) the code computes a
zero delay: `2u32.pow(current_retries)` wraps to 0. -/
theorem exponential_backoff_wrap_zero (n i m : Nat) (h : 32 ≤ n) :
    exponential_backoff n i m = 0 := by
  have hz : pow2_u32 n = 0 := by
    simp only [pow2_u32, U32_MOD]
    obtain ⟨k, hk⟩ := pow_dvd_pow 2 h
    rw [hk, Nat.mul_mod_right]
  simp [exponential_backoff, hz]

/-! Claim theorems. -/

/-- C1: Exactly-once retrieval. `get_response` first removes the registry
entry for the identifier and then waits on the removed channel; when the
identifier is unknown the call fails with the NotFound-style
`"No response receiver found"` error (and changes nothing); and after a
successful removal the entry is gone, so a repeated `get_response` on the
same identifier fails with the same NotFound-style error rather than
returning a value or being a no-op. -/
theorem get_response_exactly_once (st : Orchestrator) (i : RequestID) :
    (st.requests.lookup i = none →
       (st.get_response i).2 = .notFound ∧ (st.get_response i).1 = st) ∧
    (∀ c, (st.get_response i).2 = .waitOn c →
       st.requests.lookup i = some c ∧
       (st.get_response i).1.requests.lookup i = none ∧
       ((st.get_response i).1.get_response i).2 = .notFound) := by
  rcases hl : st.requests.lookup i with _ | c0
  · refine ⟨fun _ => ?_, fun c hc => ?_⟩
    · simp [Orchestrator.get_response, hl]
    · simp [Orchestrator.get_response, hl] at hc
  · refine ⟨fun hnone => ?_, fun c hc => ?_⟩
    · exact absurd hnone (by simp)
    · have h2 : (st.get_response i).2 = .waitOn c0 := by
        simp [Orchestrator.get_response, hl]
      rw [h2] at hc
      injection hc with hcc
      subst hcc
      have h1 : (st.get_response i).1 = { st with requests := regErase st.requests i } := by
        simp [Orchestrator.get_response, hl]
      refine ⟨rfl, ?_, ?_⟩
      · rw [h1]
        exact lookup_regErase st.requests i
      · rw [h1]
        simp [Orchestrator.get_response, lookup_regErase]

/-- C1 witness: on the concrete registry `[(1, 7)]`, retrieving the unknown
identifier 2 yields NotFound, and retrieving identifier 1 a second time after
a successful retrieval yields NotFound. -/
theorem get_response_exactly_once_witness :
    ((Orchestrator.mk [(1, 7)] 0 0 []).get_response 2).2 = .notFound ∧
    (((Orchestrator.mk [(1, 7)] 0 0 []).get_response 1).1.get_response 1).2 = .notFound := by
  refine ⟨((get_response_exactly_once (Orchestrator.mk [(1, 7)] 0 0 []) 2).1 (by rfl)).1, ?_⟩
  exact ((get_response_exactly_once (Orchestrator.mk [(1, 7)] 0 0 []) 1).2 7 (by rfl)).2.2

/-- C2: Admission bound. For every concurrency limit `C` fixed at
`Orchestrator::new`, every state reachable by any number of submissions and
scheduler steps has at most `C` tasks simultaneously inside their `send`
bodies: every spawned task first acquires one permit of the capacity-`C`
semaphore and releases it on completion, so
`runningCount + available = C` is invariant. -/
theorem admission_bound (C : Nat) (st : Orchestrator)
    (h : Reachable (Orchestrator.new C) st) :
    runningCount st.tasks ≤ C := by
  have key : runningCount st.tasks + st.available = C ∧ st.limit = C := by
    induction h with
    | refl => simp [Orchestrator.new, runningCount]
    | tail hs hstep ih =>
      obtain ⟨h1, h2⟩ := step_preserves _ _ hstep
      omega
  omega

/-- C2 witness: with limit 1, after submitting one request and letting its
task acquire the permit, the number of running tasks is bounded by 1. -/
theorem admission_bound_witness :
    runningCount [(⟨5, TaskPhase.running⟩ : OrchTask)] ≤ 1 := by
  have hch : Reachable (Orchestrator.new 1) ⟨[(5, 5)], 0, 1, [⟨5, .running⟩]⟩ :=
    Relation.ReflTransGen.tail
      (Relation.ReflTransGen.single (Step.add_request (Orchestrator.new 1) 5))
      (Step.acquire [(5, 5)] 0 1 5 [] [])
  exact admission_bound 1 ⟨[(5, 5)], 0, 1, [⟨5, .running⟩]⟩ hch

/-- C6: Submission protocol ordering. `add_request` returns the minted
identifier, whose result channel is registered in the returned state (the
registration happens under the registry lock before the task is spawned, so
a retrieval issued after submission cannot miss it); the submitter takes no
admission permit (`available` is unchanged) and does not wait for the work:
the spawned task starts in the `pending` phase, before `semaphore.acquire()`. -/
theorem add_request_registers_before_spawn (st : Orchestrator) (i : RequestID) :
    (st.add_request i).2 = i ∧
    (st.add_request i).1.requests.lookup i = some i ∧
    (st.add_request i).1.available = st.available ∧
    (st.add_request i).1.limit = st.limit ∧
    (st.add_request i).1.tasks = st.tasks ++ [⟨i, .pending⟩] :=
  ⟨rfl, lookup_regInsert st.requests i i, rfl, rfl, rfl⟩

/-- C9: Effective timeout bound. The timeout applied by the chat executable
to each attempt equals the minimum of the request-specific dynamic estimate
and the static `TimeoutPolicy` ceiling, so it never exceeds the ceiling. -/
theorem effective_timeout_min (d c : Nat) :
    effective_timeout d c = min d c ∧ effective_timeout d c ≤ c := by
  simp only [effective_timeout, Nat.min_def]
  rcases Nat.lt_or_ge c d with h | h
  · rw [if_pos h, if_neg (Nat.not_le.mpr h)]
    exact ⟨rfl, Nat.le_refl c⟩
  · rw [if_neg (Nat.not_lt.mpr h), if_pos h]
    exact ⟨rfl, h⟩

/-- C3: Retry gate and exhaustion count. From a freshly constructed policy
(counter 0, maximum `m`) of any variant, `failed_request` returns `true` and
increments the counter on each of the first `m` calls and returns `false` on
every later call (the counter stuck at `m`); consequently an executable whose
attempts all fail with `max_retries = 5` performs exactly 6 attempts and then
returns the "reached max retry" exhaustion error. -/
theorem retry_gate_and_exhaustion (p : RetryPolicy) (h0 : p.current_retries = 0) :
    (∀ j, j < p.max_retries →
       ((iterFail p j).failed_request).retry = true ∧
       (iterFail p j).current_retries = j ∧
       (iterFail p (j + 1)).current_retries = j + 1) ∧
    (∀ j, p.max_retries ≤ j →
       ((iterFail p j).failed_request).retry = false ∧
       (iterFail p j).current_retries = p.max_retries) ∧
    (∀ {P R : Type} (validate : P → SendOutcome R) (outcomes : Nat → Attempt P),
       (∀ n, isTransient (outcomes n) = true) → p.max_retries = 5 →
       (sendLoop validate outcomes p 0).result = .maxRetry ∧
       (sendLoop validate outcomes p 0).attempts = 6) := by
  refine ⟨fun j hj => ?_, fun j hj => ?_, fun {P R} validate outcomes ho h5 => ?_⟩
  · have hc := iterFail_current p h0 j
    have hm := iterFail_max p j
    have hc1 := iterFail_current p h0 (j + 1)
    exact ⟨(failed_request_retry_iff _).mpr (by omega), by omega, by omega⟩
  · have hc := iterFail_current p h0 j
    have hm := iterFail_max p j
    refine ⟨?_, by omega⟩
    rcases hb : ((iterFail p j).failed_request).retry with _ | _
    · rfl
    · have := (failed_request_retry_iff _).mp hb
      omega
  · have h6 := sendLoop_alwaysFail_aux validate outcomes ho
      (p.max_retries - p.current_retries) p 0 (Nat.le_refl _)
    refine ⟨h6.1, ?_⟩
    rw [h6.2, h0, h5]

/-- C3 witness: the fresh `Immediate` policy with maximum 5 retries gates the
first call open and the sixth call shut, and an always-failing executable
under it performs exactly 6 attempts ending in the exhaustion error. -/
theorem retry_gate_and_exhaustion_witness :
    ((iterFail (.immediate 0 5) 0).failed_request).retry = true ∧
    ((iterFail (.immediate 0 5) 5).failed_request).retry = false ∧
    (sendLoop (fun _ : Unit => SendOutcome.ok 0) (fun _ => Attempt.timeout)
      (.immediate 0 5) 0).result = .maxRetry ∧
    (sendLoop (fun _ : Unit => SendOutcome.ok 0) (fun _ => Attempt.timeout)
      (.immediate 0 5) 0).attempts = 6 := by
  have h := retry_gate_and_exhaustion (.immediate 0 5) rfl
  have hs := h.2.2 (fun _ : Unit => SendOutcome.ok 0) (fun _ => Attempt.timeout)
    (fun n => rfl) rfl
  exact ⟨(h.1 0 (by decide)).1, (h.2.1 5 (by decide)).1, hs.1, hs.2⟩

/-- C4 (amended): Exponential backoff delay. While `current_retries < max_retries`,
`failed_request` on an `ExponentialBackoff` policy sleeps for
`min(initial_delay * (2 ^ current_retries mod 2 ^ 32), max_delay)` — which
equals the specified `min(initial_delay * 2 ^ current_retries, max_delay)`
whenever `current_retries ≤ 31` — computed from the counter value before the
increment, then increments the counter and returns `true`; once
`current_retries ≥ max_retries` it returns `false` without sleeping; with
`initial = 1 s` and `cap = 10 s` the delays computed for retries 0..6 are
1, 2, 4, 8, 10, 10, 10 seconds. -/
theorem exponential_backoff_behavior (cur maxR i m : Nat) :
    (cur < maxR →
       RetryPolicy.failed_request (.exponentialBackoff cur maxR i m) =
         ⟨true, some (min (i * pow2_u32 cur) m), .exponentialBackoff (cur + 1) maxR i m⟩) ∧
    (cur ≤ 31 → exponential_backoff cur i m = min (i * 2 ^ cur) m) ∧
    (maxR ≤ cur →
       RetryPolicy.failed_request (.exponentialBackoff cur maxR i m) =
         ⟨false, none, .exponentialBackoff cur maxR i m⟩) ∧
    (List.range 7).map (fun n => exponential_backoff n second (10 * second)) =
      [second, 2 * second, 4 * second, 8 * second, 10 * second, 10 * second, 10 * second] := by
  refine ⟨fun h => ?_, fun h => exponential_backoff_no_wrap cur i m h, fun h => ?_, by decide⟩
  · simp [RetryPolicy.failed_request, h, exponential_backoff_eq_min]
  · simp [RetryPolicy.failed_request, Nat.not_lt.mpr h]

/-- C4 counterexample: at `current_retries = 32 < max_retries = 40` with
`initial_delay = 1 s` and `max_delay = 10 s`, the delay actually slept is 0,
while the claimed formula `min(initial_delay * 2 ^ current_retries, max_delay)`
gives 10 s. -/
theorem exponential_backoff_formula_cex :
    (RetryPolicy.failed_request (.exponentialBackoff 32 40 second (10 * second))).slept
      = some 0 ∧
    min (second * 2 ^ 32) (10 * second) = 10 * second ∧
    (0 : Nat) ≠ 10 * second := by
  refine ⟨?_, ?_, ?_⟩ <;> decide

/-- C4 witness: instances of the amended claim at `current_retries = 3` (gate
open, delay `min(1 s * 2 ^ 3, 10 s)`) and at `current_retries = max_retries = 5`
(gate shut, no sleep). -/
theorem exponential_backoff_behavior_witness :
    RetryPolicy.failed_request (.exponentialBackoff 3 5 second (10 * second)) =
      ⟨true, some (min (second * pow2_u32 3) (10 * second)),
        .exponentialBackoff 4 5 second (10 * second)⟩ ∧
    exponential_backoff 3 second (10 * second) = min (second * 2 ^ 3) (10 * second) ∧
    RetryPolicy.failed_request (.exponentialBackoff 5 5 second (10 * second)) =
      ⟨false, none, .exponentialBackoff 5 5 second (10 * second)⟩ := by
  have h := exponential_backoff_behavior 3 5 second (10 * second)
  have h2 := exponential_backoff_behavior 5 5 second (10 * second)
  exact ⟨h.1 (by decide), h.2.1 (by decide), h2.2.2.1 (by decide)⟩

/-- C5: Timeout is transient. A timed-out attempt is routed through
`failed_request` exactly like a remote error: replacing timeouts by remote
errors (or conversely) anywhere in the attempt oracle leaves the whole
behaviour of the `send` loop unchanged; and on a timeout, when
`failed_request` returns `true` the loop repeats the attempt with the retry
counter advanced (consuming one retry, possibly after a backoff sleep), and
when it returns `false` the loop returns the terminal
"reached max retry" error. -/
theorem timeout_routed_like_remote_error {P R : Type} (validate : P → SendOutcome R)
    (o o2 : Nat → Attempt P) (p : RetryPolicy) (k : Nat)
    (hswap : ∀ n, transientAlike (o n) (o2 n)) :
    sendLoop validate o p k = sendLoop validate o2 p k ∧
    (o k = .timeout →
      ((p.failed_request).retry = true →
         sendLoop validate o p k =
           (sendLoop validate o (p.failed_request).next (k + 1)).afterFail
             (p.failed_request).slept) ∧
      ((p.failed_request).retry = false →
         sendLoop validate o p k = ⟨.maxRetry, 1, []⟩)) := by
  refine ⟨sendLoop_transient_congr_aux validate o o2 hswap
    (p.max_retries - p.current_retries) p k (Nat.le_refl _),
    fun ht => ⟨fun hr => ?_, fun hr => ?_⟩⟩
  · exact sendLoop_transient_retry validate o p k (by rw [ht]; rfl) hr
  · exact sendLoop_transient_stop validate o p k (by rw [ht]; rfl) hr

/-- C5 witness: under the chat validator, an all-timeouts oracle behaves
exactly like an all-remote-errors oracle, and a timeout with the retry
budget exhausted returns the terminal max-retry error after 1 attempt. -/
theorem timeout_routed_like_remote_error_witness :
    sendLoop chatValidate (fun _ => Attempt.timeout) (.immediate 0 1) 0 =
      sendLoop chatValidate (fun _ => Attempt.remoteError) (.immediate 0 1) 0 ∧
    sendLoop chatValidate (fun _ => Attempt.timeout) (.immediate 1 1) 0 =
      ⟨.maxRetry, 1, []⟩ := by
  have h := timeout_routed_like_remote_error chatValidate (fun _ => Attempt.timeout)
    (fun _ => Attempt.remoteError) (.immediate 0 1) 0 (fun n => Or.inr ⟨rfl, rfl⟩)
  have h2 := timeout_routed_like_remote_error chatValidate (fun _ => Attempt.timeout)
    (fun _ => Attempt.timeout) (.immediate 1 1) 0 (fun n => Or.inl rfl)
  exact ⟨h.1, (h2.2 rfl).2 (by decide)⟩

/-- C7 (amended): Identifier liveness. In every reachable state, distinct
live registry entries have distinct identifiers (the registry is a map keyed
by the identifier); however `add_request` does not guard against reuse of a
minted identifier: on a collision with a live entry it returns the colliding
identifier unchanged and replaces the existing entry
(`HashMap::insert` semantics) rather than rejecting or regenerating. -/
theorem identifier_uniqueness_and_overwrite (C : Nat) (st : Orchestrator)
    (h : Reachable (Orchestrator.new C) st) :
    (st.requests.map Prod.fst).Nodup ∧
    (∀ i, (st.add_request i).2 = i ∧
       (st.add_request i).1.requests = (i, i) :: regErase st.requests i) := by
  refine ⟨?_, fun i => ⟨rfl, rfl⟩⟩
  induction h with
  | refl => simp [Orchestrator.new]
  | tail hs hstep ih => exact step_nodup _ _ hstep ih

/-- C7 counterexample: with a live registry entry `(5, 0)`, a submission
whose minted identifier is again 5 returns 5 (no regeneration, no rejection)
and the registry afterwards maps 5 to the new channel with the old live
entry gone — it was overwritten. -/
theorem add_request_collision_overwrites_cex :
    ((Orchestrator.mk [(5, 0)] 1 1 []).add_request 5).2 = 5 ∧
    ((Orchestrator.mk [(5, 0)] 1 1 []).add_request 5).1.requests = [(5, 5)] ∧
    (Orchestrator.mk [(5, 0)] 1 1 []).requests.lookup 5 = some 0 ∧
    ((Orchestrator.mk [(5, 0)] 1 1 []).add_request 5).1.requests.lookup 5 = some 5 := by
  refine ⟨rfl, ?_, rfl, ?_⟩ <;> rfl

/-- C7 witness: the freshly constructed orchestrator is reachable and has
distinct registry identifiers, and a submission on it inserts the minted
identifier at the head of the registry. -/
theorem identifier_uniqueness_and_overwrite_witness :
    (((Orchestrator.new 2).requests.map Prod.fst).Nodup) ∧
    ((Orchestrator.new 2).add_request 7).1.requests =
      (7, 7) :: regErase (Orchestrator.new 2).requests 7 := by
  have h := identifier_uniqueness_and_overwrite 2 (Orchestrator.new 2)
    Relation.ReflTransGen.refl
  exact ⟨h.1, (h.2 7).2⟩

/-- C8 (amended): Malformed success is permanent. A timely success whose
first chat choice exists but lacks its `content`, and a timely embedding
success with empty `data`, make `send` return the distinct terminal
required-field error immediately: one attempt, no sleep, and the result is
the same for every retry policy — `failed_request` is never consulted.
(Exception, see the counterexample: a chat success with an empty `choices`
vector panics on `response.choices[0]` instead of returning an error.) -/
theorem malformed_success_terminal {α : Type} (p q : RetryPolicy) (k k2 : Nat)
    (o : Nat → Attempt (List (Option String))) (oe : Nat → Attempt (List (List α)))
    (rest : List (Option String))
    (hc : o k = .success (none :: rest))
    (he : oe k2 = .success []) :
    sendLoop chatValidate o p k = ⟨.fieldError, 1, []⟩ ∧
    sendLoop embedValidate oe q k2 = ⟨.fieldError, 1, []⟩ := by
  constructor
  · rw [sendLoop_success chatValidate o p k (none :: rest) hc]
    rfl
  · rw [sendLoop_success embedValidate oe q k2 [] he]
    rfl

/-- C8 counterexample: a timely success whose `choices` vector is empty makes
the chat executable evaluate `response.choices[0]`, which panics (index out
of bounds) instead of returning a distinct terminal error. -/
theorem chat_empty_choices_panic_cex :
    (sendLoop chatValidate (fun _ => Attempt.success []) (.immediate 0 5) 0).result
      = SendOutcome.panicked ∧
    SendOutcome.panicked ≠ (SendOutcome.fieldError : SendOutcome String) := by
  constructor
  · rw [sendLoop_success chatValidate (fun _ => Attempt.success []) (.immediate 0 5) 0 [] rfl]
    rfl
  · simp

/-- C8 witness: concrete malformed-but-timely successes — a chat response
whose only choice has no content, and an embedding response with empty
`data` — each terminate in one attempt with the field error. -/
theorem malformed_success_terminal_witness :
    sendLoop chatValidate (fun _ => Attempt.success [none]) (.immediate 0 5) 0 =
      ⟨.fieldError, 1, []⟩ ∧
    sendLoop embedValidate (fun _ => Attempt.success ([] : List (List Unit)))
      (.immediate 0 5) 0 = ⟨.fieldError, 1, []⟩ :=
  malformed_success_terminal (.immediate 0 5) (.immediate 0 5) 0 0
    (fun _ => Attempt.success [none]) (fun _ => Attempt.success ([] : List (List Unit)))
    [] rfl rfl

/-- C10: Backoff counter overflow. The delay computation raises `2u32` to
`current_retries` in 32-bit arithmetic, so for every `current_retries ≥ 32`
(reachable whenever `max_retries ≥ 33`) the power wraps to 0 and the computed
delay is 0 instead of the cap (the concrete conjuncts: at `current_retries = 32`
with `initial = 1 s` and `cap = 10 s`, the true formula gives the cap but the
code gives 0); the `min(initial * 2 ^ n, cap)` formula is honored exactly for
`current_retries ≤ 31`. -/
theorem exponential_backoff_u32_wrap (n i m : Nat) :
    (32 ≤ n → exponential_backoff n i m = 0) ∧
    (n ≤ 31 → exponential_backoff n i m = min (i * 2 ^ n) m) ∧
    exponential_backoff 32 second (10 * second) = 0 ∧
    min (second * 2 ^ 32) (10 * second) = 10 * second :=
  ⟨fun h => exponential_backoff_wrap_zero n i m h,
   fun h => exponential_backoff_no_wrap n i m h,
   by decide, by decide⟩

/-- C10 witness: the wrapped delay is 0 at `current_retries = 33`, and at
`current_retries = 31` the un-wrapped formula still holds. -/
theorem exponential_backoff_u32_wrap_witness :
    exponential_backoff 33 second (10 * second) = 0 ∧
    exponential_backoff 31 1 (10 ^ 20) = min (1 * 2 ^ 31) (10 ^ 20) := by
  have h := exponential_backoff_u32_wrap 33 second (10 * second)
  have h2 := exponential_backoff_u32_wrap 31 1 (10 ^ 20)
  exact ⟨h.1 (by decide), h2.2.1 (by decide)⟩

end OpenaiOrch
